import Mathlib

/-!
Shallow embedding of the gRPC weighted_round_robin load-balancing policy
(src/core/load_balancing/weighted_round_robin/weighted_round_robin.cc),
together with theorems settling the specification claims against it.

Timestamps and durations are integers (the source stores both as int64
millisecond counts), with Timestamp.InfFuture a distinguished point;
floating-point weights are modelled as rationals; absl statuses are
modelled as an optional error message (none standing for OkStatus).
-/

namespace WRR

/-- Model of grpc_core Timestamp: a finite instant or InfFuture. -/
inductive Time where
  | fin (t : ℤ)
  | inf
deriving DecidableEq

/-- Comparison now - t >= d where t may be InfFuture: timestamp subtraction
in the source yields a saturating Duration, so for t = InfFuture the
difference is minus infinity and the comparison with a finite d is false. -/
def diffGe (now : ℤ) (t : Time) (d : ℤ) : Bool :=
  match t with
  | .inf => false
  | .fin s => decide (d ≤ now - s)

/-- Comparison now - t < d where t may be InfFuture: for t = InfFuture the
saturating difference is minus infinity, so the comparison is true. -/
def diffLt (now : ℤ) (t : Time) (d : ℤ) : Bool :=
  match t with
  | .inf => true
  | .fin s => decide (now - s < d)

/-- Order on timestamps with InfFuture as the greatest element. -/
def timeLE : Time → Time → Bool
  | .fin a, .fin b => decide (a ≤ b)
  | .fin _, .inf => true
  | .inf, .inf => true
  | .inf, .fin _ => false

/-- State of WeightedRoundRobin EndpointWeight: the fields weight_,
non_empty_since_ and last_update_time_ guarded by the per-endpoint mutex. -/
structure EndpointWeight where
  weight : ℚ
  non_empty_since : Time
  last_update_time : Time
deriving DecidableEq

/-- Initial EndpointWeight state: weight_ = 0 and both timestamps InfFuture. -/
def initEW : EndpointWeight := ⟨0, .inf, .inf⟩

/-- Weight computation at the top of EndpointWeight MaybeUpdateWeight: the
weight is 0 unless qps > 0 and utilization > 0, in which case it is
qps / (utilization + penalty) where penalty = eps / qps *
error_utilization_penalty when eps > 0 and error_utilization_penalty > 0,
and penalty = 0 otherwise. -/
def computeWeight (qps eps utilization penalty : ℚ) : ℚ :=
  if 0 < qps ∧ 0 < utilization then
    qps / (utilization + (if 0 < eps ∧ 0 < penalty then eps / qps * penalty else 0))
  else 0

/-- EndpointWeight MaybeUpdateWeight: when the computed weight is 0 the call
returns without mutating state; otherwise it sets non_empty_since_ to now if
it was InfFuture, stores the weight, and sets last_update_time_ to now. -/
def MaybeUpdateWeight (ew : EndpointWeight) (qps eps utilization penalty : ℚ)
    (now : ℤ) : EndpointWeight :=
  if computeWeight qps eps utilization penalty = 0 then ew
  else
    { weight := computeWeight qps eps utilization penalty
      non_empty_since :=
        if ew.non_empty_since = Time.inf then Time.fin now else ew.non_empty_since
      last_update_time := Time.fin now }

/-- Result of EndpointWeight GetWeight: the returned weight, the state after
the call, and the two counters the source updates through out-pointers. -/
structure GetWeightResult where
  ret : ℚ
  state : EndpointWeight
  numNotYetUsable : ℕ
  numStale : ℕ
deriving DecidableEq

/-- EndpointWeight GetWeight: if the most recent update is older than the
expiration period, count it stale, reset non_empty_since_ to InfFuture and
return 0; else if the blackout period is positive and not yet over, count it
not yet usable and return 0; otherwise return the stored weight. -/
def GetWeight (ew : EndpointWeight) (now expiration blackout : ℤ)
    (numNotYetUsable numStale : ℕ) : GetWeightResult :=
  if diffGe now ew.last_update_time expiration then
    ⟨0, { ew with non_empty_since := Time.inf }, numNotYetUsable, numStale + 1⟩
  else if 0 < blackout ∧ diffLt now ew.non_empty_since blackout then
    ⟨0, ew, numNotYetUsable + 1, numStale⟩
  else
    ⟨ew.weight, ew, numNotYetUsable, numStale⟩

/-- EndpointWeight ResetNonEmptySince: set non_empty_since_ to InfFuture. -/
def ResetNonEmptySince (ew : EndpointWeight) : EndpointWeight :=
  { ew with non_empty_since := Time.inf }

/-- Weight formula exactly as the claim words it: qps / (utilization +
(eps / qps) * penalty) whenever qps > 0 and utilization > 0, else 0. -/
def claimComputedWeight (qps eps utilization penalty : ℚ) : ℚ :=
  if 0 < qps ∧ 0 < utilization then qps / (utilization + eps / qps * penalty) else 0

/-- Weight formula as amended: the penalty term (eps / qps) * penalty only
enters when eps > 0 and penalty > 0, and is 0 otherwise. -/
def amendedComputedWeight (qps eps utilization penalty : ℚ) : ℚ :=
  if 0 < qps ∧ 0 < utilization then
    qps / (utilization + (if 0 < eps ∧ 0 < penalty then eps / qps * penalty else 0))
  else 0

/-- C1: GetWeight returns 0, bumps the stale counter and resets
non_empty_since to InfFuture when the weight is expired; returns 0 and bumps
the not-yet-usable counter, leaving non_empty_since alone, when inside a
positive blackout period; and otherwise returns the stored weight with
neither counter incremented. -/
theorem C1_getWeight_cases (ew : EndpointWeight) (now expiration blackout : ℤ)
    (u s : ℕ) :
    (diffGe now ew.last_update_time expiration = true →
      GetWeight ew now expiration blackout u s =
        ⟨0, { ew with non_empty_since := Time.inf }, u, s + 1⟩) ∧
    (diffGe now ew.last_update_time expiration = false →
      0 < blackout → diffLt now ew.non_empty_since blackout = true →
      GetWeight ew now expiration blackout u s = ⟨0, ew, u + 1, s⟩) ∧
    (diffGe now ew.last_update_time expiration = false →
      ¬(0 < blackout ∧ diffLt now ew.non_empty_since blackout = true) →
      GetWeight ew now expiration blackout u s = ⟨ew.weight, ew, u, s⟩) := by
  refine ⟨?_, ?_, ?_⟩
  · intro h1
    simp [GetWeight, h1]
  · intro h1 h2 h3
    simp [GetWeight, h1, h2, h3]
  · intro h1 h2
    simp only [GetWeight, h1, Bool.false_eq_true, if_false]
    rw [if_neg h2]

/-- Witness for C1 at three concrete inputs, one per branch. -/
theorem C1_witness :
    GetWeight ⟨5, Time.fin 0, Time.fin 0⟩ 100 50 20 0 0 =
      ⟨0, ⟨5, Time.inf, Time.fin 0⟩, 0, 1⟩ ∧
    GetWeight ⟨5, Time.fin 90, Time.fin 90⟩ 100 50 20 0 0 =
      ⟨0, ⟨5, Time.fin 90, Time.fin 90⟩, 1, 0⟩ ∧
    GetWeight ⟨5, Time.fin 0, Time.fin 90⟩ 100 50 5 0 0 =
      ⟨5, ⟨5, Time.fin 0, Time.fin 90⟩, 0, 0⟩ :=
  ⟨(C1_getWeight_cases ⟨5, Time.fin 0, Time.fin 0⟩ 100 50 20 0 0).1 (by decide),
   (C1_getWeight_cases ⟨5, Time.fin 90, Time.fin 90⟩ 100 50 20 0 0).2.1
     (by decide) (by decide) (by decide),
   (C1_getWeight_cases ⟨5, Time.fin 0, Time.fin 90⟩ 100 50 5 0 0).2.2
     (by decide) (by decide)⟩

/-- C10: GetWeight never changes weight_ or last_update_time_, and changes
non_empty_since_ only in the expiration branch, where it sets it to
InfFuture; an expired endpoint thus keeps its stored weight value. -/
theorem C10_getWeight_frame (ew : EndpointWeight) (now expiration blackout : ℤ)
    (u s : ℕ) :
    (GetWeight ew now expiration blackout u s).state.weight = ew.weight ∧
    (GetWeight ew now expiration blackout u s).state.last_update_time =
      ew.last_update_time ∧
    (diffGe now ew.last_update_time expiration = true →
      (GetWeight ew now expiration blackout u s).state.non_empty_since = Time.inf) ∧
    (diffGe now ew.last_update_time expiration = false →
      (GetWeight ew now expiration blackout u s).state.non_empty_since =
        ew.non_empty_since) := by
  cases h : diffGe now ew.last_update_time expiration with
  | true =>
      simp [GetWeight, h]
  | false =>
      by_cases h2 : 0 < blackout ∧ diffLt now ew.non_empty_since blackout = true
      · simp [GetWeight, h, h2]
      · simp only [GetWeight, h, Bool.false_eq_true, if_false]
        rw [if_neg h2]
        simp

/-- Witness for C10 at one expired and one non-expired concrete input. -/
theorem C10_witness :
    (GetWeight ⟨5, Time.fin 0, Time.fin 0⟩ 100 50 20 0 0).state.weight = 5 ∧
    (GetWeight ⟨5, Time.fin 0, Time.fin 0⟩ 100 50 20 0 0).state.non_empty_since =
      Time.inf ∧
    (GetWeight ⟨5, Time.fin 90, Time.fin 90⟩ 100 50 20 0 0).state.non_empty_since =
      Time.fin 90 :=
  ⟨(C10_getWeight_frame ⟨5, Time.fin 0, Time.fin 0⟩ 100 50 20 0 0).1,
   (C10_getWeight_frame ⟨5, Time.fin 0, Time.fin 0⟩ 100 50 20 0 0).2.2.1 (by decide),
   (C10_getWeight_frame ⟨5, Time.fin 90, Time.fin 90⟩ 100 50 20 0 0).2.2.2 (by decide)⟩

/-- C2 counterexample: at qps = 2, eps = -1, utilization = 1, penalty = 1 the
formula of the claim, qps / (utilization + (eps / qps) * penalty), gives 4,
but MaybeUpdateWeight stores weight 2, because the source applies the
penalty term only when eps > 0 and the penalty is > 0. -/
theorem C2_counterexample :
    (MaybeUpdateWeight initEW 2 (-1) 1 1 0).weight = 2 ∧
    claimComputedWeight 2 (-1) 1 1 = 4 := by
  constructor
  · norm_num [MaybeUpdateWeight, computeWeight, initEW]
  · norm_num [claimComputedWeight]

/-- C2 as amended: the computed weight follows the formula with the penalty
term guarded by eps > 0 and penalty > 0; a computed weight of 0 leaves the
state untouched, and a nonzero one sets non_empty_since to now exactly when
it was InfFuture, stores the weight, and sets last_update_time to now. -/
theorem C2_maybeUpdateWeight (ew : EndpointWeight)
    (qps eps utilization penalty : ℚ) (now : ℤ) :
    computeWeight qps eps utilization penalty =
      amendedComputedWeight qps eps utilization penalty ∧
    (computeWeight qps eps utilization penalty = 0 →
      MaybeUpdateWeight ew qps eps utilization penalty now = ew) ∧
    (computeWeight qps eps utilization penalty ≠ 0 →
      MaybeUpdateWeight ew qps eps utilization penalty now =
        ⟨amendedComputedWeight qps eps utilization penalty,
         if ew.non_empty_since = Time.inf then Time.fin now else ew.non_empty_since,
         Time.fin now⟩) := by
  refine ⟨rfl, ?_, ?_⟩
  · intro h
    simp [MaybeUpdateWeight, h]
  · intro h
    simp only [MaybeUpdateWeight, h, if_false]
    rfl

/-- Witness for C2 at a zero-weight and a positive-weight concrete input. -/
theorem C2_witness :
    MaybeUpdateWeight initEW 0 0 0 0 5 = initEW ∧
    MaybeUpdateWeight initEW 1 0 1 1 7 =
      ⟨amendedComputedWeight 1 0 1 1,
       if initEW.non_empty_since = Time.inf then Time.fin 7
       else initEW.non_empty_since,
       Time.fin 7⟩ :=
  ⟨(C2_maybeUpdateWeight initEW 0 0 0 0 5).2.1 (by norm_num [computeWeight]),
   (C2_maybeUpdateWeight initEW 1 0 1 1 7).2.2 (by norm_num [computeWeight])⟩

/-- One mutating call on an EndpointWeight; now is the Timestamp value the
call observes (MaybeUpdateWeight reads the clock, GetWeight receives it as
an argument). -/
inductive Op where
  | upd (qps eps utilization penalty : ℚ) (now : ℤ)
  | get (now expiration blackout : ℤ)
  | reset
deriving DecidableEq

/-- Effect of one call on the EndpointWeight state. -/
def Op.step (ew : EndpointWeight) : Op → EndpointWeight
  | .upd q e u p now => MaybeUpdateWeight ew q e u p now
  | .get now expiration blackout => (GetWeight ew now expiration blackout 0 0).state
  | .reset => ResetNonEmptySince ew

/-- State after a sequence of calls starting from the initial state. -/
def run (ops : List Op) : EndpointWeight := ops.foldl Op.step initEW

/-- Timestamp observed by a call, when it observes one. -/
def opNow : Op → Option ℤ
  | .upd _ _ _ _ now => some now
  | .get now _ _ => some now
  | .reset => none

/-- Timestamps observed by successive calls never decrease (the clock is
monotone); t is a lower bound for every timestamp in the trace. -/
def chrono : ℤ → List Op → Bool
  | _, [] => true
  | t, op :: ops =>
      match opNow op with
      | none => chrono t ops
      | some s => decide (t ≤ s) && chrono s ops

/-- Bound of a possibly infinite timestamp by a finite one: InfFuture is
unconstrained, a finite instant must be at most the bound. -/
def ubBy : Time → ℤ → Prop
  | .inf, _ => True
  | .fin s, t => s ≤ t

theorem ubBy_mono {x : Time} {a b : ℤ} (h : ubBy x a) (hab : a ≤ b) :
    ubBy x b := by
  cases x with
  | inf => trivial
  | fin s => exact le_trans h hab

/-- Invariant carried through a trace at current time t: the weight is
non-negative, every finite timestamp in the state is at most t, and a finite
non_empty_since is bounded by a finite last_update_time. -/
def Inv (t : ℤ) (ew : EndpointWeight) : Prop :=
  0 ≤ ew.weight ∧ ubBy ew.non_empty_since t ∧ ubBy ew.last_update_time t ∧
  ∀ a, ew.non_empty_since = Time.fin a →
    ∃ b, ew.last_update_time = Time.fin b ∧ a ≤ b

theorem computeWeight_nonneg (qps eps utilization penalty : ℚ) :
    0 ≤ computeWeight qps eps utilization penalty := by
  unfold computeWeight
  split
  · rename_i h
    have hp : (0:ℚ) ≤ (if 0 < eps ∧ 0 < penalty then eps / qps * penalty else 0) := by
      split
      · rename_i h2
        exact mul_nonneg (div_nonneg (le_of_lt h2.1) (le_of_lt h.1)) (le_of_lt h2.2)
      · exact le_refl 0
    exact div_nonneg (le_of_lt h.1) (add_nonneg (le_of_lt h.2) hp)
  · exact le_refl 0

theorem Inv_update (t now : ℤ) (ew : EndpointWeight) (q e u p : ℚ)
    (hinv : Inv t ew) (ht : t ≤ now) :
    Inv now (MaybeUpdateWeight ew q e u p now) := by
  obtain ⟨hw, hnes, hlut, hrel⟩ := hinv
  unfold MaybeUpdateWeight
  split
  · exact ⟨hw, ubBy_mono hnes ht, ubBy_mono hlut ht,
      fun a ha => (hrel a ha).imp fun b hb => ⟨hb.1, hb.2⟩⟩
  · refine ⟨computeWeight_nonneg q e u p, ?_, le_refl now, ?_⟩
    · split
      · exact le_refl now
      · exact ubBy_mono hnes ht
    · intro a ha
      refine ⟨now, rfl, ?_⟩
      revert ha
      split
      · intro ha
        cases ha
        exact le_refl now
      · intro ha
        have := hnes
        rw [ha] at this
        exact le_trans this ht

theorem Inv_get (t now expiration blackout : ℤ) (ew : EndpointWeight)
    (u s : ℕ) (hinv : Inv t ew) (ht : t ≤ now) :
    Inv now (GetWeight ew now expiration blackout u s).state := by
  obtain ⟨hw, hnes, hlut, hrel⟩ := hinv
  unfold GetWeight
  split
  · refine ⟨hw, trivial, ubBy_mono hlut ht, ?_⟩
    intro a ha
    simp at ha
  · split
    · exact ⟨hw, ubBy_mono hnes ht, ubBy_mono hlut ht, hrel⟩
    · exact ⟨hw, ubBy_mono hnes ht, ubBy_mono hlut ht, hrel⟩

theorem Inv_reset (t : ℤ) (ew : EndpointWeight) (hinv : Inv t ew) :
    Inv t (ResetNonEmptySince ew) := by
  obtain ⟨hw, _, hlut, _⟩ := hinv
  refine ⟨hw, trivial, hlut, ?_⟩
  intro a ha
  simp [ResetNonEmptySince] at ha

theorem Inv_run (ops : List Op) : ∀ (t : ℤ) (ew : EndpointWeight),
    Inv t ew → chrono t ops = true →
    ∃ u, Inv u (ops.foldl Op.step ew) := by
  induction ops with
  | nil =>
      intro t ew h _
      exact ⟨t, h⟩
  | cons op ops ih =>
      intro t ew h hc
      cases op with
      | upd q e u0 p now =>
          simp only [chrono, opNow, Bool.and_eq_true, decide_eq_true_eq] at hc
          exact ih now _ (Inv_update t now ew q e u0 p h hc.1) hc.2
      | get now expiration blackout =>
          simp only [chrono, opNow, Bool.and_eq_true, decide_eq_true_eq] at hc
          exact ih now _ (Inv_get t now expiration blackout ew 0 0 h hc.1) hc.2
      | reset =>
          simp only [chrono, opNow] at hc
          exact ih t _ (Inv_reset t ew h) hc

theorem initEW_inv (t : ℤ) : Inv t initEW := by
  refine ⟨le_refl 0, trivial, trivial, ?_⟩
  intro a ha
  simp [initEW] at ha

/-- C3 counterexample: after a weight update at time 0 and an expired
GetWeight call at time 200 with expiration period 100, the state reached by
this chronological trace has a positive weight while non_empty_since is
InfFuture, which is not at most the finite last_update_time, contradicting
the claimed invariant. -/
theorem C3_counterexample :
    chrono 0 [Op.upd 1 0 1 1 0, Op.get 200 100 10] = true ∧
    0 < (run [Op.upd 1 0 1 1 0, Op.get 200 100 10]).weight ∧
    timeLE (run [Op.upd 1 0 1 1 0, Op.get 200 100 10]).non_empty_since
      (run [Op.upd 1 0 1 1 0, Op.get 200 100 10]).last_update_time = false := by
  have h1 : computeWeight 1 0 1 1 = 1 := by norm_num [computeWeight]
  have h2 : run [Op.upd 1 0 1 1 0, Op.get 200 100 10] =
      ⟨1, Time.inf, Time.fin 0⟩ := by
    simp only [run, List.foldl, Op.step, MaybeUpdateWeight, h1, initEW]
    norm_num [GetWeight, diffGe, diffLt]
  refine ⟨by decide, ?_, ?_⟩
  · rw [h2]
    norm_num
  · rw [h2]
    decide

/-- C3 as amended: from the initial EndpointWeight state, along every
chronological sequence of MaybeUpdateWeight, GetWeight and
ResetNonEmptySince calls, the weight stays non-negative, and whenever it is
positive, non_empty_since is InfFuture (blackout pending again) or is at
most last_update_time. -/
theorem C3_invariant (ops : List Op) (t0 : ℤ) (hc : chrono t0 ops = true) :
    0 ≤ (run ops).weight ∧
    (0 < (run ops).weight →
      (run ops).non_empty_since = Time.inf ∨
      ∃ a b, (run ops).non_empty_since = Time.fin a ∧
        (run ops).last_update_time = Time.fin b ∧ a ≤ b) := by
  obtain ⟨u, hu⟩ := Inv_run ops t0 initEW (initEW_inv t0) hc
  refine ⟨hu.1, ?_⟩
  intro _
  cases h : (run ops).non_empty_since with
  | inf => exact Or.inl rfl
  | fin a =>
      obtain ⟨b, hb, hab⟩ := hu.2.2.2 a h
      exact Or.inr ⟨a, b, rfl, hb, hab⟩

/-- Witness for C3 on a concrete chronological trace. -/
theorem C3_witness :
    0 ≤ (run [Op.upd 1 0 1 1 0, Op.get 200 100 10]).weight ∧
    (0 < (run [Op.upd 1 0 1 1 0, Op.get 200 100 10]).weight →
      (run [Op.upd 1 0 1 1 0, Op.get 200 100 10]).non_empty_since = Time.inf ∨
      ∃ a b,
        (run [Op.upd 1 0 1 1 0, Op.get 200 100 10]).non_empty_since = Time.fin a ∧
        (run [Op.upd 1 0 1 1 0, Op.get 200 100 10]).last_update_time = Time.fin b ∧
        a ≤ b) :=
  C3_invariant [Op.upd 1 0 1 1 0, Op.get 200 100 10] 0 (by decide)

/-- Model of absl Status: none for OkStatus, some m for an error message. -/
abbrev Status := Option String

/-- Connectivity-relevant state of a WrrEndpointList: the three counters,
its size, last_failure_, and whether AllEndpointsSeenInitialState holds
(EndpointList base class: every endpoint has delivered its initial
connectivity state notification). -/
structure ListState where
  numReady : ℕ
  numConnecting : ℕ
  numTransientFailure : ℕ
  sz : ℕ
  lastFailure : Status
  allSeenInitialState : Bool
deriving DecidableEq

/-- What MaybeUpdateAggregatedConnectivityStateLocked publishes through the
channel-control helper. -/
inductive Published where
  | ready
  | connecting
  | transientFailure (st : Status)
  | nothing
deriving DecidableEq

/-- Wrapping applied to a non-OK triggering status before it is stored in
last_failure_. -/
def wrapFailure (m : String) : Status :=
  some ("connections to all backends failing; last error: " ++ m)

/-- Aggregation step of MaybeUpdateAggregatedConnectivityStateLocked once the
list is endpoint_list_, first matching rule wins: READY with a fresh picker,
else CONNECTING with a queueing picker, else TRANSIENT_FAILURE reporting
last_failure_ after recording a non-OK triggering status into it. -/
def aggregateState (s : ListState) (statusForTf : Status) :
    Published × ListState :=
  if 0 < s.numReady then (.ready, s)
  else if 0 < s.numConnecting then (.connecting, s)
  else if s.numTransientFailure = s.sz then
    match statusForTf with
    | some m => (.transientFailure (wrapFailure m), { s with lastFailure := wrapFailure m })
    | none => (.transientFailure s.lastFailure, s)
  else (.nothing, s)

/-- Promotion condition for latest_pending_endpoint_list_: the active list
has no READY endpoint, or the pending list has a READY endpoint and all of
its endpoints have seen their initial state, or all of its endpoints are in
TRANSIENT_FAILURE. -/
def promoteCond (activeNumReady : ℕ) (pending : ListState) : Bool :=
  decide (activeNumReady = 0) ||
  (decide (0 < pending.numReady) && pending.allSeenInitialState) ||
  decide (pending.numTransientFailure = pending.sz)

/-- MaybeUpdateAggregatedConnectivityStateLocked as invoked on the pending
list: swap it in when the promotion condition holds and then aggregate over
it; otherwise leave it pending and publish nothing. The Bool records whether
the swap happened. -/
def pendingAggStep (activeNumReady : ℕ) (pending : ListState)
    (statusForTf : Status) : Bool × Published × ListState :=
  if promoteCond activeNumReady pending then
    (true, (aggregateState pending statusForTf).1, (aggregateState pending statusForTf).2)
  else (false, .nothing, pending)

theorem pendingAggStep_fst (a : ℕ) (p : ListState) (st : Status) :
    (pendingAggStep a p st).1 = promoteCond a p := by
  cases h : promoteCond a p <;> simp [pendingAggStep, h]

/-- C4: aggregation over the active list, first matching rule wins: READY
with a fresh picker when there is a READY endpoint, else CONNECTING with a
queueing picker when one is connecting, else TRANSIENT_FAILURE when every
endpoint is in TRANSIENT_FAILURE, in which case a non-OK triggering status
is recorded (wrapped) into last_failure_ and last_failure_ is reported, so
an OK triggering status reports the previously recorded failure. -/
theorem C4_aggregation (s : ListState) (st : Status) :
    (0 < s.numReady → aggregateState s st = (.ready, s)) ∧
    (s.numReady = 0 → 0 < s.numConnecting →
      aggregateState s st = (.connecting, s)) ∧
    (s.numReady = 0 → s.numConnecting = 0 → s.numTransientFailure = s.sz →
      (∀ m, st = some m →
        aggregateState s st =
          (.transientFailure (wrapFailure m), { s with lastFailure := wrapFailure m })) ∧
      (st = none → aggregateState s st = (.transientFailure s.lastFailure, s))) ∧
    (s.numReady = 0 → s.numConnecting = 0 → s.numTransientFailure ≠ s.sz →
      aggregateState s st = (.nothing, s)) := by
  refine ⟨?_, ?_, ?_, ?_⟩
  · intro h
    simp [aggregateState, h]
  · intro h1 h2
    simp [aggregateState, h1, h2]
  · intro h1 h2 h3
    constructor
    · intro m hm
      simp [aggregateState, h1, h2, h3, hm]
    · intro hm
      simp [aggregateState, h1, h2, h3, hm]
  · intro h1 h2 h3
    simp [aggregateState, h1, h2, h3]

/-- Witness for C4 at concrete list states, one per aggregation rule, with
both a non-OK and an OK triggering status for the failure rule. -/
theorem C4_witness :
    aggregateState ⟨1, 0, 0, 1, none, true⟩ none = (.ready, ⟨1, 0, 0, 1, none, true⟩) ∧
    aggregateState ⟨0, 1, 0, 2, none, false⟩ none =
      (.connecting, ⟨0, 1, 0, 2, none, false⟩) ∧
    aggregateState ⟨0, 0, 2, 2, some "old", true⟩ (some "boom") =
      (.transientFailure (wrapFailure "boom"), ⟨0, 0, 2, 2, wrapFailure "boom", true⟩) ∧
    aggregateState ⟨0, 0, 2, 2, some "old", true⟩ none =
      (.transientFailure (some "old"), ⟨0, 0, 2, 2, some "old", true⟩) ∧
    aggregateState ⟨0, 0, 1, 2, none, true⟩ none = (.nothing, ⟨0, 0, 1, 2, none, true⟩) :=
  ⟨(C4_aggregation ⟨1, 0, 0, 1, none, true⟩ none).1 (by decide),
   (C4_aggregation ⟨0, 1, 0, 2, none, false⟩ none).2.1 rfl (by decide),
   ((C4_aggregation ⟨0, 0, 2, 2, some "old", true⟩ (some "boom")).2.2.1 rfl rfl rfl).1
     "boom" rfl,
   ((C4_aggregation ⟨0, 0, 2, 2, some "old", true⟩ none).2.2.1 rfl rfl rfl).2 rfl,
   (C4_aggregation ⟨0, 0, 1, 2, none, true⟩ none).2.2.2 rfl rfl (by decide)⟩

/-- C5: a pending list is promoted exactly when the active list has no READY
endpoint, or the pending list has a READY endpoint and every one of its
endpoints has seen its initial state notification, or all of its endpoints
are in TRANSIENT_FAILURE; when none of these holds it stays pending and
nothing is published. -/
theorem C5_promotion (activeNumReady : ℕ) (pending : ListState) (st : Status) :
    ((pendingAggStep activeNumReady pending st).1 = true ↔
      (activeNumReady = 0 ∨
       (0 < pending.numReady ∧ pending.allSeenInitialState = true) ∨
       pending.numTransientFailure = pending.sz)) ∧
    ((pendingAggStep activeNumReady pending st).1 = false →
      (pendingAggStep activeNumReady pending st).2 = (.nothing, pending)) := by
  constructor
  · rw [pendingAggStep_fst]
    simp [promoteCond, Bool.or_eq_true, Bool.and_eq_true, decide_eq_true_eq]
    tauto
  · intro h
    rw [pendingAggStep_fst] at h
    simp [pendingAggStep, h]

/-- Witness for C5 at a concrete non-promoting pending list. -/
theorem C5_witness :
    ((pendingAggStep 1 ⟨0, 1, 0, 2, none, false⟩ (some "x")).1 = true ↔
      ((1:ℕ) = 0 ∨ ((0:ℕ) < 0 ∧ false = true) ∨ (0:ℕ) = 2)) ∧
    (pendingAggStep 1 ⟨0, 1, 0, 2, none, false⟩ (some "x")).2 =
      (.nothing, ⟨0, 1, 0, 2, none, false⟩) :=
  ⟨(C5_promotion 1 ⟨0, 1, 0, 2, none, false⟩ (some "x")).1,
   (C5_promotion 1 ⟨0, 1, 0, 2, none, false⟩ (some "x")).2 (by decide)⟩

/-- Connectivity states the policy distinguishes. -/
inductive ConnState where
  | idle
  | connecting
  | ready
  | transientFailure
deriving DecidableEq

/-- Effect of WrrEndpoint OnStateUpdate on the endpoint weight: a transition
into READY from a known prior state other than READY restarts the blackout
via ResetNonEmptySince; an IDLE report requests a reconnect instead, and no
other notification touches the weight. -/
def onStateUpdateWeight (oldState : Option ConnState) (newState : ConnState)
    (ew : EndpointWeight) : EndpointWeight :=
  if newState = ConnState.idle then ew
  else if newState = ConnState.ready then
    match oldState with
    | some o => if o ≠ ConnState.ready then ResetNonEmptySince ew else ew
    | none => ew
  else ew

/-- C7: a READY notification with a recorded prior state other than READY
resets non_empty_since to InfFuture; an initial READY notification does not;
and after a READY to CONNECTING to READY sequence, GetWeight with a positive
blackout period and an unexpired weight returns 0. -/
theorem C7_blackout_reset (ew : EndpointWeight) :
    (∀ o, o ≠ ConnState.ready →
      (onStateUpdateWeight (some o) ConnState.ready ew).non_empty_since =
        Time.inf) ∧
    (onStateUpdateWeight none ConnState.ready ew = ew) ∧
    (∀ (now expiration blackout : ℤ) (u s : ℕ), 0 < blackout →
      diffGe now
        (onStateUpdateWeight (some ConnState.connecting) ConnState.ready
          (onStateUpdateWeight (some ConnState.ready) ConnState.connecting ew)).last_update_time
        expiration = false →
      (GetWeight
        (onStateUpdateWeight (some ConnState.connecting) ConnState.ready
          (onStateUpdateWeight (some ConnState.ready) ConnState.connecting ew))
        now expiration blackout u s).ret = 0) := by
  refine ⟨?_, rfl, ?_⟩
  · intro o ho
    simp [onStateUpdateWeight, ho, ResetNonEmptySince]
  · intro now expiration blackout u s hb hexp
    have hmid : onStateUpdateWeight (some ConnState.ready) ConnState.connecting ew = ew := rfl
    rw [hmid] at hexp ⊢
    have hres : onStateUpdateWeight (some ConnState.connecting) ConnState.ready ew =
        ResetNonEmptySince ew := by
      simp [onStateUpdateWeight]
    rw [hres] at hexp ⊢
    have hlut : (ResetNonEmptySince ew).last_update_time = ew.last_update_time := rfl
    simp only [GetWeight, hexp, Bool.false_eq_true, if_false]
    have hcond : 0 < blackout ∧
        diffLt now (ResetNonEmptySince ew).non_empty_since blackout = true :=
      ⟨hb, by simp [ResetNonEmptySince, diffLt]⟩
    rw [if_pos hcond]

/-- Witness for C7 at a concrete weight state and concrete times. -/
theorem C7_witness :
    (onStateUpdateWeight (some ConnState.transientFailure) ConnState.ready
      ⟨7, Time.fin 0, Time.fin 0⟩).non_empty_since = Time.inf ∧
    onStateUpdateWeight none ConnState.ready ⟨7, Time.fin 0, Time.fin 0⟩ =
      ⟨7, Time.fin 0, Time.fin 0⟩ ∧
    (GetWeight
      (onStateUpdateWeight (some ConnState.connecting) ConnState.ready
        (onStateUpdateWeight (some ConnState.ready) ConnState.connecting
          ⟨7, Time.fin 0, Time.fin 0⟩))
      5 100 10 0 0).ret = 0 :=
  ⟨(C7_blackout_reset ⟨7, Time.fin 0, Time.fin 0⟩).1 ConnState.transientFailure
     (by decide),
   (C7_blackout_reset ⟨7, Time.fin 0, Time.fin 0⟩).2.1,
   (C7_blackout_reset ⟨7, Time.fin 0, Time.fin 0⟩).2.2 5 100 10 0 0 (by decide)
     (by decide)⟩

/-- Insertion of an address-set key into a sorted duplicate-free list,
modelling the std set insertion UpdateLocked uses to weed out duplicate
endpoints and order them by address-set comparison. -/
def insertSorted (x : ℕ) : List ℕ → List ℕ
  | [] => [x]
  | y :: ys =>
      if x < y then x :: y :: ys
      else if x = y then y :: ys
      else y :: insertSorted x ys

/-- Deduplicated sorted endpoint sequence built by UpdateLocked. -/
def dedupSort (l : List ℕ) : List ℕ :=
  l.foldl (fun acc x => insertSorted x acc) []

/-- Lists owned by the policy: endpoint_list_ and
latest_pending_endpoint_list_, each recorded as its endpoint keys. -/
structure PolicyLists where
  endpointList : Option (List ℕ)
  latestPending : Option (List ℕ)
deriving DecidableEq

/-- Outcome of UpdateLocked: the resulting lists, the status passed to
ReportTransientFailure when it was called, and the returned status. -/
structure UpdateOutcome where
  lists : PolicyLists
  reportedTf : Option Status
  ret : Status
deriving DecidableEq

/-- Status returned when some children failed to initialize. -/
def childErrors (errors : List String) : Status :=
  some ("errors from children: [" ++ String.intercalate "; " errors ++ "]")

/-- WeightedRoundRobin UpdateLocked, modelled at the endpoint-list level.
addresses is the resolver update, an error status or a list of address-set
keys; errors collects child construction failures. With an address error and
an existing endpoint_list_ the update returns the error at once; otherwise a
new pending list replaces the previous pending one (EndpointList built over
a null iterator, as in the error case, has no endpoints); an empty pending
list is promoted at once with TRANSIENT_FAILURE reported using either the
empty-address-list status or the resolver status, which is also returned;
and an initial update is promoted at once. -/
def UpdateLocked (st : PolicyLists) (addresses : Except String (List ℕ))
    (errors : List String) : UpdateOutcome :=
  match addresses with
  | .error e =>
      if st.endpointList.isSome then ⟨st, none, some e⟩
      else ⟨⟨some [], none⟩, some (some e), some e⟩
  | .ok l =>
      if dedupSort l = [] then
        ⟨⟨some [], none⟩, some (some "empty address list"),
         some "empty address list"⟩
      else if st.endpointList = none then
        ⟨⟨some (dedupSort l), none⟩, none,
         if errors = [] then none else childErrors errors⟩
      else
        ⟨⟨st.endpointList, some (dedupSort l)⟩, none,
         if errors = [] then none else childErrors errors⟩

/-- C6: when the pending list built by UpdateLocked is empty, it is promoted
to active at once, TRANSIENT_FAILURE is reported with the status
empty address list for a valid empty address list and with the resolver
status for a resolver error, and that same status is returned. -/
theorem C6_empty_update (st : PolicyLists) (errors : List String) :
    (∀ l, dedupSort l = [] →
      UpdateLocked st (.ok l) errors =
        ⟨⟨some [], none⟩, some (some "empty address list"),
         some "empty address list"⟩) ∧
    (∀ e, st.endpointList = none →
      UpdateLocked st (.error e) errors =
        ⟨⟨some [], none⟩, some (some e), some e⟩) := by
  constructor
  · intro l h
    simp [UpdateLocked, h]
  · intro e h
    simp [UpdateLocked, h]

/-- Witness for C6 for a concrete empty update and a concrete resolver error
with no active list. -/
theorem C6_witness :
    UpdateLocked ⟨some [1], some [2]⟩ (.ok []) [] =
      ⟨⟨some [], none⟩, some (some "empty address list"),
       some "empty address list"⟩ ∧
    UpdateLocked ⟨none, none⟩ (.error "resolver down") [] =
      ⟨⟨some [], none⟩, some (some "resolver down"), some "resolver down"⟩ :=
  ⟨(C6_empty_update ⟨some [1], some [2]⟩ []).1 [] (by decide),
   (C6_empty_update ⟨none, none⟩ []).2 "resolver down" rfl⟩

/-- C9: a resolver error with an existing active list leaves both lists
unchanged, publishes nothing and returns the resolver status; only without
an active list does the policy build an empty list and report
TRANSIENT_FAILURE with that status. -/
theorem C9_resolver_error (st : PolicyLists) (e : String)
    (errors : List String) :
    (st.endpointList.isSome = true →
      UpdateLocked st (.error e) errors = ⟨st, none, some e⟩) ∧
    (st.endpointList = none →
      UpdateLocked st (.error e) errors =
        ⟨⟨some [], none⟩, some (some e), some e⟩) := by
  constructor
  · intro h
    simp [UpdateLocked, h]
  · intro h
    simp [UpdateLocked, h]

/-- Witness for C9 with and without an active list. -/
theorem C9_witness :
    UpdateLocked ⟨some [3], some [4]⟩ (.error "dns failure") ["child a"] =
      ⟨⟨some [3], some [4]⟩, none, some "dns failure"⟩ ∧
    UpdateLocked ⟨none, none⟩ (.error "dns failure") [] =
      ⟨⟨some [], none⟩, some (some "dns failure"), some "dns failure"⟩ :=
  ⟨(C9_resolver_error ⟨some [3], some [4]⟩ "dns failure" ["child a"]).1 rfl,
   (C9_resolver_error ⟨none, none⟩ "dns failure" []).2 rfl⟩

/-- Modelled from the spec: StaticStrideScheduler lives in
static_stride_scheduler.cc, which is not among the sources; per section 4.A
of the specification, Make declines unless at least two weights are
positive, and pick selects the candidate index seq mod n for the sequence
value seq drawn from the shared counter (the accept-or-retry loop only moves
to a later sequence value, so every result has this form). -/
structure StaticStrideScheduler where
  numWeights : ℕ
deriving DecidableEq

/-- Modelled from the spec: scheduler construction declines with fewer than
two positive weights, in which case the caller falls back to round robin. -/
def StaticStrideScheduler.Make (weights : List ℚ) :
    Option StaticStrideScheduler :=
  if 2 ≤ (weights.filter (fun w => 0 < w)).length then some ⟨weights.length⟩
  else none

/-- Modelled from the spec: a pick returns the accepted candidate index,
which is the current sequence value modulo the number of weights. -/
def StaticStrideScheduler.Pick (s : StaticStrideScheduler) (seq : ℕ) : ℕ :=
  seq % s.numWeights

/-- Picker state used by PickIndex: the READY endpoint snapshot (one weight
per endpoint at the last rebuild), the scheduler slot guarded by
scheduler_mu_, and last_picked_index_ for the round-robin fallback. -/
structure Picker where
  endpointWeights : List ℚ
  scheduler : Option StaticStrideScheduler
  lastPickedIndex : ℕ
deriving DecidableEq

/-- Scheduler installation in BuildSchedulerAndStartTimerLocked: one weight
per snapshot endpoint is fed to StaticStrideScheduler Make and the result,
possibly none, is stored. -/
def buildScheduler (p : Picker) : Picker :=
  { p with scheduler := StaticStrideScheduler.Make p.endpointWeights }

/-- Picker PickIndex: use the scheduler when one is installed; otherwise
return last_picked_index_ fetch_add 1 modulo the snapshot size. -/
def PickIndex (p : Picker) (seq : ℕ) : ℕ × Picker :=
  match p.scheduler with
  | some s => (s.Pick seq, p)
  | none =>
      (p.lastPickedIndex % p.endpointWeights.length,
       { p with lastPickedIndex := p.lastPickedIndex + 1 })

/-- C8: with a non-empty endpoint snapshot, PickIndex always yields an index
below the snapshot size, both through a scheduler built over the snapshot
weights and through the round-robin fallback, whose index is
last_picked_index_ modulo the snapshot size. -/
theorem C8_pick_index_bounds (p : Picker) (seq : ℕ)
    (h : p.endpointWeights ≠ []) :
    (PickIndex (buildScheduler p) seq).1 < p.endpointWeights.length ∧
    (p.scheduler = none →
      (PickIndex p seq).1 = p.lastPickedIndex % p.endpointWeights.length ∧
      (PickIndex p seq).1 < p.endpointWeights.length) := by
  have hlen : 0 < p.endpointWeights.length := List.length_pos.mpr h
  constructor
  · by_cases h2 : 2 ≤ (p.endpointWeights.filter (fun w => 0 < w)).length
    · have hb : buildScheduler p =
          { p with scheduler := some ⟨p.endpointWeights.length⟩ } := by
        simp [buildScheduler, StaticStrideScheduler.Make, h2]
      rw [hb]
      simpa [PickIndex, StaticStrideScheduler.Pick] using
        Nat.mod_lt seq hlen
    · have hb : buildScheduler p = { p with scheduler := none } := by
        simp [buildScheduler, StaticStrideScheduler.Make, h2]
      rw [hb]
      simpa [PickIndex] using Nat.mod_lt p.lastPickedIndex hlen
  · intro hs
    constructor
    · simp [PickIndex, hs]
    · simp only [PickIndex, hs]
      exact Nat.mod_lt p.lastPickedIndex hlen

/-- Witness for C8 on concrete pickers, one with a scheduler built over two
positive weights and one in the round-robin fallback. -/
theorem C8_witness :
    (PickIndex (buildScheduler ⟨[1, 2], none, 7⟩) 5).1 < 2 ∧
    ((⟨[1, 0], none, 7⟩ : Picker).scheduler = none →
      (PickIndex ⟨[1, 0], none, 7⟩ 5).1 = 7 % 2 ∧
      (PickIndex ⟨[1, 0], none, 7⟩ 5).1 < 2) :=
  ⟨(C8_pick_index_bounds ⟨[1, 2], none, 7⟩ 5 (by simp)).1,
   (C8_pick_index_bounds ⟨[1, 0], none, 7⟩ 5 (by simp)).2⟩

end WRR
